import Mathlib

/-!
Shallow embedding of `git-vfs` (src/src/lib.rs): an in-memory
content-addressable object store with an object map, a reference map and an
optional HEAD pointer, plus a SHA-256 hex utility.

Rust's `HashMap<String, V>` is embedded as an association list with
map semantics: `insert` replaces an existing binding, `get` finds the
binding, `contains_key` tests presence.  Byte slices `&[u8]` are embedded as
`List Nat` of byte values.  Methods taking `&mut self` become functions
`GitVfs → args → result × GitVfs`; methods taking `&self` return only the
result.
-/

deriving instance DecidableEq for Except

/-- Lookup in an association list, the embedding of `HashMap::get`. -/
def mapFind? {α : Type} (m : List (String × α)) (k : String) : Option α :=
  match m with
  | [] => none
  | (k₂, v) :: rest => if k₂ = k then some v else mapFind? rest k

/-- Membership test, the embedding of `HashMap::contains_key`. -/
def mapContains {α : Type} (m : List (String × α)) (k : String) : Bool :=
  (mapFind? m k).isSome

/-- Insert-or-replace, the embedding of `HashMap::insert`. -/
def mapInsert {α : Type} (m : List (String × α)) (k : String) (v : α) :
    List (String × α) :=
  match m with
  | [] => [(k, v)]
  | (k₂, v₂) :: rest =>
    if k₂ = k then (k, v) :: rest else (k₂, v₂) :: mapInsert rest k v

/-- Error enum `GitVfsError` from the source. -/
inductive GitVfsError where
  | NotFound
  | AlreadyExists
  | InvalidOperation
  deriving DecidableEq, Repr

/-- The store: objects map, refs map, optional HEAD (struct `GitVfs`). -/
structure GitVfs where
  objects : List (String × List Nat)
  refs : List (String × String)
  head : Option String
  deriving DecidableEq, Repr

namespace GitVfs

/-- `GitVfs::new`: empty maps, unset HEAD. -/
def new : GitVfs := { objects := [], refs := [], head := none }

/-- `GitVfs::create_object`: fails with `AlreadyExists` when the hash is
present, otherwise inserts the data. -/
def create_object (s : GitVfs) (hash : String) (data : List Nat) :
    Except GitVfsError Unit × GitVfs :=
  if mapContains s.objects hash then (Except.error GitVfsError.AlreadyExists, s)
  else (Except.ok (), { s with objects := mapInsert s.objects hash data })

/-- `GitVfs::get_object`: returns the stored data or `NotFound`. -/
def get_object (s : GitVfs) (hash : String) : Except GitVfsError (List Nat) :=
  match mapFind? s.objects hash with
  | some data => Except.ok data
  | none => Except.error GitVfsError.NotFound

/-- `GitVfs::create_ref`: unconditional insert-or-overwrite, always `Ok`. -/
def create_ref (s : GitVfs) (ref_name : String) (hash : String) :
    Except GitVfsError Unit × GitVfs :=
  (Except.ok (), { s with refs := mapInsert s.refs ref_name hash })

/-- `GitVfs::get_ref`: returns the target identifier or `NotFound`. -/
def get_ref (s : GitVfs) (ref_name : String) : Except GitVfsError String :=
  match mapFind? s.refs ref_name with
  | some hash => Except.ok hash
  | none => Except.error GitVfsError.NotFound

/-- `GitVfs::update_ref`: `NotFound` when the name is absent, otherwise
replaces the target. -/
def update_ref (s : GitVfs) (ref_name : String) (hash : String) :
    Except GitVfsError Unit × GitVfs :=
  if !mapContains s.refs ref_name then (Except.error GitVfsError.NotFound, s)
  else (Except.ok (), { s with refs := mapInsert s.refs ref_name hash })

/-- `GitVfs::set_head`: `NotFound` when the ref name is absent, otherwise
points HEAD at the name. -/
def set_head (s : GitVfs) (ref_name : String) :
    Except GitVfsError Unit × GitVfs :=
  if !mapContains s.refs ref_name then (Except.error GitVfsError.NotFound, s)
  else (Except.ok (), { s with head := some ref_name })

/-- `GitVfs::get_head`: returns the stored ref name or `NotFound`. -/
def get_head (s : GitVfs) : Except GitVfsError String :=
  match s.head with
  | some head_ref => Except.ok head_ref
  | none => Except.error GitVfsError.NotFound

/-- `GitVfs::create_blob`: derives the identifier as the decimal string of
the data length, then delegates to `create_object`, propagating its error. -/
def create_blob (s : GitVfs) (data : List Nat) :
    Except GitVfsError String × GitVfs :=
  let hash := toString data.length
  match create_object s hash data with
  | (Except.ok _, s₂) => (Except.ok hash, s₂)
  | (Except.error e, s₂) => (Except.error e, s₂)

end GitVfs

/-- The 25-byte content `b"Hello, git virtual world!"` from the demo driver. -/
def helloBytes : List Nat :=
  [72, 101, 108, 108, 111, 44, 32, 103, 105, 116, 32, 118, 105, 114, 116,
   117, 97, 108, 32, 119, 111, 114, 108, 100, 33]

/-- Return values of the eight store operations, for a uniform step
function. -/
inductive RetVal where
  | unit
  | bytes (d : List Nat)
  | str (v : String)
  deriving DecidableEq, Repr

/-- One invocation of any of the eight public store operations. -/
inductive Op where
  | createObject (h : String) (d : List Nat)
  | getObject (h : String)
  | createRef (n : String) (t : String)
  | getRef (n : String)
  | updateRef (n : String) (t : String)
  | setHead (n : String)
  | getHead
  | createBlob (d : List Nat)
  deriving DecidableEq, Repr

/-- Uniform step function: runs one operation, returning its result and the
resulting state.  Read-only operations (`&self` in the source) leave the
state untouched by construction of the Rust borrow rules. -/
def step (s : GitVfs) (op : Op) : Except GitVfsError RetVal × GitVfs :=
  match op with
  | Op.createObject h d =>
    let (r, s₂) := s.create_object h d
    (r.map fun _ => RetVal.unit, s₂)
  | Op.getObject h => (((s.get_object h).map RetVal.bytes), s)
  | Op.createRef n t =>
    let (r, s₂) := s.create_ref n t
    (r.map fun _ => RetVal.unit, s₂)
  | Op.getRef n => (((s.get_ref n).map RetVal.str), s)
  | Op.updateRef n t =>
    let (r, s₂) := s.update_ref n t
    (r.map fun _ => RetVal.unit, s₂)
  | Op.setHead n =>
    let (r, s₂) := s.set_head n
    (r.map fun _ => RetVal.unit, s₂)
  | Op.getHead => (((s.get_head).map RetVal.str), s)
  | Op.createBlob d =>
    let (r, s₂) := s.create_blob d
    (r.map RetVal.str, s₂)

/-- Run a sequence of operations from a state, keeping only the state. -/
def run (s : GitVfs) (ops : List Op) : GitVfs :=
  ops.foldl (fun t op => (step t op).2) s

/-!
SHA-256, the embedding of `Sha256::new / update / finalize` followed by
`hex::encode`, as used by `GitVfs::data_sha256`.  32-bit words are `Nat`
taken modulo `2^32`.
-/

/-- 2 to the 32, the modulus of 32-bit words. -/
def M32 : Nat := 4294967296

/-- Right rotation of a 32-bit word. -/
def rotr32 (x n : Nat) : Nat := ((x >>> n) ||| (x <<< (32 - n))) % M32

/-- SHA-256 round constants. -/
def sha256K : Array Nat :=
  #[
    1116352408, 1899447441, 3049323471, 3921009573, 961987163,
    1508970993, 2453635748, 2870763221, 3624381080, 310598401,
    607225278, 1426881987, 1925078388, 2162078206, 2614888103,
    3248222580, 3835390401, 4022224774, 264347078, 604807628,
    770255983, 1249150122, 1555081692, 1996064986, 2554220882,
    2821834349, 2952996808, 3210313671, 3336571891, 3584528711,
    113926993, 338241895, 666307205, 773529912, 1294757372,
    1396182291, 1695183700, 1986661051, 2177026350, 2456956037,
    2730485921, 2820302411, 3259730800, 3345764771, 3516065817,
    3600352804, 4094571909, 275423344, 430227734, 506948616,
    659060556, 883997877, 958139571, 1322822218, 1537002063,
    1747873779, 1955562222, 2024104815, 2227730452, 2361852424,
    2428436474, 2756734187, 3204031479, 3329325298]

/-- SHA-256 initial hash values. -/
def sha256H0 : Array Nat :=
  #[
    1779033703, 3144134277, 1013904242, 2773480762,
    1359893119, 2600822924, 528734635, 1541459225]

/-- SHA-256 lowercase sigma 0. -/
def smallSigma0 (x : Nat) : Nat := (rotr32 x 7) ^^^ (rotr32 x 18) ^^^ (x >>> 3)

/-- SHA-256 lowercase sigma 1. -/
def smallSigma1 (x : Nat) : Nat := (rotr32 x 17) ^^^ (rotr32 x 19) ^^^ (x >>> 10)

/-- SHA-256 uppercase Sigma 0. -/
def bigSigma0 (x : Nat) : Nat := (rotr32 x 2) ^^^ (rotr32 x 13) ^^^ (rotr32 x 22)

/-- SHA-256 uppercase Sigma 1. -/
def bigSigma1 (x : Nat) : Nat := (rotr32 x 6) ^^^ (rotr32 x 11) ^^^ (rotr32 x 25)

/-- Merkle–Damgård padding: append `0x80`, zero bytes to 56 mod 64, then
the bit length as 8 big-endian bytes. -/
def sha256Pad (msg : List Nat) : List Nat :=
  let len := msg.length
  let zeros := (120 - ((len + 1) % 64)) % 64
  let bitLen := len * 8
  msg ++ 128 :: List.replicate zeros 0 ++
    [(bitLen >>> 56) % 256, (bitLen >>> 48) % 256, (bitLen >>> 40) % 256,
     (bitLen >>> 32) % 256, (bitLen >>> 24) % 256, (bitLen >>> 16) % 256,
     (bitLen >>> 8) % 256, bitLen % 256]

/-- Group bytes into big-endian 32-bit words. -/
def bytesToWords : List Nat → List Nat
  | b0 :: b1 :: b2 :: b3 :: rest =>
    (((b0 * 256 + b1) * 256 + b2) * 256 + b3) :: bytesToWords rest
  | _ => []

/-- Extend the 16 chunk words to the 64-entry message schedule. -/
def msgSchedule (chunk : List Nat) : Array Nat :=
  (List.range 48).foldl
    (fun a i =>
      let t := i + 16
      a.push ((smallSigma1 (a.get! (t - 2)) + a.get! (t - 7) +
        smallSigma0 (a.get! (t - 15)) + a.get! (t - 16)) % M32))
    chunk.toArray

/-- One round of the SHA-256 compression loop. -/
def sha256Round (w : Array Nat)
    (s : Nat × Nat × Nat × Nat × Nat × Nat × Nat × Nat) (i : Nat) :
    Nat × Nat × Nat × Nat × Nat × Nat × Nat × Nat :=
  let (a, b, c, d, e, f, g, h) := s
  let ch := (e &&& f) ^^^ ((e ^^^ 4294967295) &&& g)
  let temp1 := (h + bigSigma1 e + ch + sha256K.get! i + w.get! i) % M32
  let maj := (a &&& b) ^^^ (a &&& c) ^^^ (b &&& c)
  let temp2 := (bigSigma0 a + maj) % M32
  ((temp1 + temp2) % M32, a, b, c, (d + temp1) % M32, e, f, g)

/-- Compress one 16-word chunk into the running hash state. -/
def sha256Compress (hs : Array Nat) (chunk : List Nat) : Array Nat :=
  let w := msgSchedule chunk
  let init := (hs.get! 0, hs.get! 1, hs.get! 2, hs.get! 3, hs.get! 4,
    hs.get! 5, hs.get! 6, hs.get! 7)
  let (a, b, c, d, e, f, g, h) := (List.range 64).foldl (sha256Round w) init
  #[(hs.get! 0 + a) % M32, (hs.get! 1 + b) % M32, (hs.get! 2 + c) % M32,
    (hs.get! 3 + d) % M32, (hs.get! 4 + e) % M32, (hs.get! 5 + f) % M32,
    (hs.get! 6 + g) % M32, (hs.get! 7 + h) % M32]

/-- Fold the compression over `n` chunks of 16 words. -/
def sha256Chunks : Nat → List Nat → Array Nat → Array Nat
  | 0, _, hs => hs
  | n + 1, ws, hs => sha256Chunks n (ws.drop 16) (sha256Compress hs (ws.take 16))

/-- Serialize 32-bit words back to big-endian bytes. -/
def wordsToBytes (ws : List Nat) : List Nat :=
  ws.foldr
    (fun w acc =>
      (w >>> 24) % 256 :: (w >>> 16) % 256 :: (w >>> 8) % 256 :: w % 256 :: acc)
    []

/-- SHA-256 digest of a byte sequence, as 32 bytes. -/
def sha256 (msg : List Nat) : List Nat :=
  let padded := sha256Pad msg
  wordsToBytes
    (sha256Chunks (padded.length / 64) (bytesToWords padded) sha256H0).toList

/-- Lowercase hex digit for a value below 16. -/
def hexDigit (n : Nat) : Char :=
  if n < 10 then Char.ofNat (48 + n) else Char.ofNat (87 + n)

/-- Hex encoding of a byte list, the embedding of `hex::encode`. -/
def hexEncode (bs : List Nat) : String :=
  String.mk (bs.foldr (fun b acc => hexDigit (b / 16) :: hexDigit (b % 16) :: acc) [])

/-- `GitVfs::data_sha256`: takes the store by mutable reference but only
hashes the input bytes; returns the hex digest and the (unchanged) store. -/
def GitVfs.data_sha256 (s : GitVfs) (data_to_hash : List Nat) :
    String × GitVfs :=
  (hexEncode (sha256 data_to_hash), s)

/-- HEAD validity: whenever HEAD holds a name, that name is a known ref. -/
def headValid (s : GitVfs) : Prop :=
  ∀ n, s.head = some n → mapContains s.refs n = true

/-! Map lemmas. -/

/-- Lookup after insert: the inserted key wins, other keys are unchanged. -/
theorem mapFind?_insert {α : Type} (m : List (String × α)) (k n : String)
    (v : α) :
    mapFind? (mapInsert m k v) n = if k = n then some v else mapFind? m n := by
  induction m with
  | nil => simp [mapInsert, mapFind?]
  | cons hd tl ih =>
    obtain ⟨k₂, v₂⟩ := hd
    by_cases h1 : k₂ = k
    · subst h1
      by_cases h2 : k₂ = n <;> simp [mapInsert, mapFind?, h2]
    · by_cases h2 : k₂ = n
      · subst h2
        have hkn : ¬ (k = k₂) := fun he => h1 he.symm
        simp [mapInsert, mapFind?, h1, hkn]
      · simp [mapInsert, mapFind?, h1, h2, ih]

/-- Inserting any binding preserves membership of present keys. -/
theorem mapContains_insert {α : Type} (m : List (String × α)) (k n : String)
    (v : α) (h : mapContains m n = true) :
    mapContains (mapInsert m k v) n = true := by
  by_cases hk : k = n <;> simp [mapContains, mapFind?_insert, hk] at h ⊢
  exact h

/-- The inserted key is always present afterwards. -/
theorem mapContains_insert_self {α : Type} (m : List (String × α))
    (k : String) (v : α) : mapContains (mapInsert m k v) k = true := by
  simp [mapContains, mapFind?_insert]

/-! Step lemmas. -/

/-- `create_object` never touches the ref map. -/
theorem create_object_refs (s : GitVfs) (h : String) (d : List Nat) :
    (s.create_object h d).2.refs = s.refs := by
  simp only [GitVfs.create_object]
  split <;> rfl

/-- `create_object` never touches HEAD. -/
theorem create_object_head (s : GitVfs) (h : String) (d : List Nat) :
    (s.create_object h d).2.head = s.head := by
  simp only [GitVfs.create_object]
  split <;> rfl

/-- `create_blob` ends in exactly the state its `create_object` call left. -/
theorem create_blob_state (s : GitVfs) (d : List Nat) :
    (s.create_blob d).2 = (s.create_object (toString d.length) d).2 := by
  simp only [GitVfs.create_blob]
  split <;> rename_i heq <;> rw [heq]

/-- `update_ref` never touches HEAD. -/
theorem update_ref_head (s : GitVfs) (m t : String) :
    (s.update_ref m t).2.head = s.head := by
  simp only [GitVfs.update_ref]
  split <;> rfl

/-- `update_ref` never touches the object map. -/
theorem update_ref_objects (s : GitVfs) (m t : String) :
    (s.update_ref m t).2.objects = s.objects := by
  simp only [GitVfs.update_ref]
  split <;> rfl

/-- `update_ref` keeps present ref names present. -/
theorem update_ref_refs_mono (s : GitVfs) (m t n : String)
    (h : mapContains s.refs n = true) :
    mapContains (s.update_ref m t).2.refs n = true := by
  simp only [GitVfs.update_ref]
  split
  · exact h
  · exact mapContains_insert _ _ _ _ h

/-- `set_head` never touches the ref map. -/
theorem set_head_refs (s : GitVfs) (m : String) :
    (s.set_head m).2.refs = s.refs := by
  simp only [GitVfs.set_head]
  split <;> rfl

/-- No operation ever removes a reference: any name present in the ref map
stays present after any single operation. -/
theorem refs_mono (s : GitVfs) (op : Op) (n : String)
    (h : mapContains s.refs n = true) :
    mapContains (step s op).2.refs n = true := by
  cases op with
  | createObject h2 d =>
    show mapContains (s.create_object h2 d).2.refs n = true
    rw [create_object_refs]
    exact h
  | getObject h2 => exact h
  | createRef m t =>
    show mapContains (mapInsert s.refs m t) n = true
    exact mapContains_insert _ _ _ _ h
  | getRef m => exact h
  | updateRef m t =>
    show mapContains (s.update_ref m t).2.refs n = true
    exact update_ref_refs_mono s m t n h
  | setHead m =>
    show mapContains (s.set_head m).2.refs n = true
    rw [set_head_refs]
    exact h
  | getHead => exact h
  | createBlob d =>
    show mapContains (s.create_blob d).2.refs n = true
    rw [create_blob_state, create_object_refs]
    exact h

/-- One step preserves validity of HEAD. -/
theorem headValid_step (s : GitVfs) (op : Op) (h : headValid s) :
    headValid (step s op).2 := by
  intro n hn
  cases op with
  | createObject h2 d =>
    show mapContains (s.create_object h2 d).2.refs n = true
    rw [create_object_refs]
    refine h n ?_
    rw [← create_object_head s h2 d]
    exact hn
  | getObject h2 => exact h n hn
  | createRef m t =>
    show mapContains (mapInsert s.refs m t) n = true
    exact mapContains_insert _ _ _ _ (h n hn)
  | getRef m => exact h n hn
  | updateRef m t =>
    show mapContains (s.update_ref m t).2.refs n = true
    refine update_ref_refs_mono s m t n (h n ?_)
    rw [← update_ref_head s m t]
    exact hn
  | setHead m =>
    show mapContains (s.set_head m).2.refs n = true
    have hn₂ : (s.set_head m).2.head = some n := hn
    rw [set_head_refs]
    cases hc : mapContains s.refs m with
    | false =>
      simp only [GitVfs.set_head, hc] at hn₂
      exact h n hn₂
    | true =>
      simp only [GitVfs.set_head, hc] at hn₂
      simp at hn₂
      rw [← hn₂]
      exact hc
  | getHead => exact h n hn
  | createBlob d =>
    show mapContains (s.create_blob d).2.refs n = true
    rw [create_blob_state, create_object_refs]
    refine h n ?_
    rw [← create_object_head s (toString d.length) d]
    rw [← create_blob_state s d]
    exact hn

/-- Running any sequence from a HEAD-valid state stays HEAD-valid. -/
theorem headValid_run (ops : List Op) (s : GitVfs) (h : headValid s) :
    headValid (run s ops) := by
  induction ops generalizing s with
  | nil => exact h
  | cons op rest ih =>
    simp only [run, List.foldl]
    exact ih (step s op).2 (headValid_step s op h)

/-- The initial state has valid (unset) HEAD. -/
theorem headValid_new : headValid GitVfs.new := by
  intro n hn
  simp [GitVfs.new] at hn

/-! Claim theorems. -/

/-- C1 counterexample: the demo content `b"Hello, git virtual world!"` has
25 bytes, so on the empty store `create_blob` returns identifier `"25"`,
not `"26"`, and `get_object "26"` afterwards is `NotFound`. -/
theorem c1_counterexample :
    helloBytes.length = 25 ∧
    (GitVfs.new.create_blob helloBytes).1 = Except.ok "25" ∧
    (GitVfs.new.create_blob helloBytes).1 ≠ Except.ok "26" ∧
    (GitVfs.new.create_blob helloBytes).2.get_object "26" =
      Except.error GitVfsError.NotFound := by
  exact ⟨by decide, by decide, by decide, by decide⟩

/-- C1 (amended): for the 25-byte input `b"Hello, git virtual world!"`,
`create_blob` on a store where identifier `"25"` is absent returns `"25"`,
and `get_object "25"` afterwards returns exactly the content. -/
theorem c1_create_blob_hello (s : GitVfs)
    (habs : mapContains s.objects "25" = false) :
    (s.create_blob helloBytes).1 = Except.ok "25" ∧
    (s.create_blob helloBytes).2.get_object "25" = Except.ok helloBytes := by
  have hlen : toString helloBytes.length = "25" := by decide
  simp only [GitVfs.create_blob, GitVfs.create_object, hlen, habs]
  simp [GitVfs.get_object, mapFind?_insert]

/-- C1 witness: the amended claim holds at the empty store. -/
theorem c1_create_blob_hello_witness :
    mapContains GitVfs.new.objects "25" = false ∧
    ((GitVfs.new.create_blob helloBytes).1 = Except.ok "25" ∧
     (GitVfs.new.create_blob helloBytes).2.get_object "25" =
       Except.ok helloBytes) :=
  ⟨by decide, c1_create_blob_hello GitVfs.new (by decide)⟩

/-- C2: with identifier `h` absent, `create_object h c1` succeeds,
`create_object h c2` then fails with `AlreadyExists`, and `get_object h`
still returns `c1`. -/
theorem c2_create_once (s : GitVfs) (h : String) (c1 c2 : List Nat)
    (habs : mapContains s.objects h = false) (hne : c1 ≠ c2) :
    (s.create_object h c1).1 = Except.ok () ∧
    ((s.create_object h c1).2.create_object h c2).1 =
      Except.error GitVfsError.AlreadyExists ∧
    ((s.create_object h c1).2.create_object h c2).2.get_object h =
      Except.ok c1 := by
  simp only [GitVfs.create_object, habs]
  simp [mapContains_insert_self, GitVfs.get_object, mapFind?_insert]

/-- C2 witness: create-once at a concrete store, identifier and contents. -/
theorem c2_create_once_witness :
    mapContains GitVfs.new.objects "h" = false ∧ [0] ≠ [1] ∧
    ((GitVfs.new.create_object "h" [0]).1 = Except.ok () ∧
     ((GitVfs.new.create_object "h" [0]).2.create_object "h" [1]).1 =
       Except.error GitVfsError.AlreadyExists ∧
     ((GitVfs.new.create_object "h" [0]).2.create_object "h" [1]).2.get_object
       "h" = Except.ok [0]) :=
  ⟨by decide, by decide, c2_create_once GitVfs.new "h" [0] [1] (by decide) (by decide)⟩

/-- C3: whenever `create_object h c` succeeds, `get_object h` on the
resulting state returns exactly `c`. -/
theorem c3_read_your_write (s : GitVfs) (h : String) (c : List Nat)
    (hok : (s.create_object h c).1 = Except.ok ()) :
    (s.create_object h c).2.get_object h = Except.ok c := by
  cases hc : mapContains s.objects h with
  | true => simp [GitVfs.create_object, hc] at hok
  | false => simp [GitVfs.create_object, hc, GitVfs.get_object, mapFind?_insert]

/-- C3 witness: read-your-write at the empty store with empty content. -/
theorem c3_read_your_write_witness :
    (GitVfs.new.create_object "h" []).1 = Except.ok () ∧
    (GitVfs.new.create_object "h" []).2.get_object "h" = Except.ok [] :=
  ⟨by decide, c3_read_your_write GitVfs.new "h" [] (by decide)⟩

/-- C4: in every state reachable from the initial store by any operation
sequence, a set HEAD names an existing reference; `set_head` only succeeds
when the name exists; and no single operation removes a present reference. -/
theorem c4_head_invariant :
    (∀ (ops : List Op) (n : String), (run GitVfs.new ops).head = some n →
      mapContains (run GitVfs.new ops).refs n = true) ∧
    (∀ (s : GitVfs) (n : String), (s.set_head n).1 = Except.ok () →
      mapContains s.refs n = true) ∧
    (∀ (s : GitVfs) (op : Op) (n : String), mapContains s.refs n = true →
      mapContains (step s op).2.refs n = true) := by
  refine ⟨fun ops n hn => headValid_run ops GitVfs.new headValid_new n hn,
    fun s n hok => ?_, refs_mono⟩
  cases hc : mapContains s.refs n with
  | true => rfl
  | false => simp [GitVfs.set_head, hc] at hok

/-- C4 witness: the invariant, the `set_head` gate and ref preservation at
concrete states. -/
theorem c4_head_invariant_witness :
    mapContains (run GitVfs.new [Op.createRef "r" "a", Op.setHead "r"]).refs
      "r" = true ∧
    mapContains (GitVfs.new.create_ref "r" "a").2.refs "r" = true ∧
    mapContains (step (GitVfs.new.create_ref "r" "a").2 Op.getHead).2.refs
      "r" = true :=
  ⟨c4_head_invariant.1 [Op.createRef "r" "a", Op.setHead "r"] "r" (by decide),
   c4_head_invariant.2.1 (GitVfs.new.create_ref "r" "a").2 "r" (by decide),
   c4_head_invariant.2.2 (GitVfs.new.create_ref "r" "a").2 Op.getHead "r"
     (by decide)⟩

/-- C5: every operation that returns an error leaves the store unchanged. -/
theorem c5_error_frame (s : GitVfs) (op : Op) (e : GitVfsError)
    (herr : (step s op).1 = Except.error e) : (step s op).2 = s := by
  cases op with
  | createObject h d =>
    show (s.create_object h d).2 = s
    have h1 : (s.create_object h d).1.map (fun _ => RetVal.unit) =
      Except.error e := herr
    simp only [GitVfs.create_object] at h1 ⊢
    split at h1
    · simp_all
    · simp [Except.map] at h1
  | getObject h => rfl
  | createRef n t =>
    have h1 : (Except.ok () : Except GitVfsError Unit).map
      (fun _ => RetVal.unit) = Except.error e := herr
    simp [Except.map] at h1
  | getRef n => rfl
  | updateRef n t =>
    show (s.update_ref n t).2 = s
    have h1 : (s.update_ref n t).1.map (fun _ => RetVal.unit) =
      Except.error e := herr
    simp only [GitVfs.update_ref] at h1 ⊢
    split at h1
    · simp_all
    · simp [Except.map] at h1
  | setHead n =>
    show (s.set_head n).2 = s
    have h1 : (s.set_head n).1.map (fun _ => RetVal.unit) =
      Except.error e := herr
    simp only [GitVfs.set_head] at h1 ⊢
    split at h1
    · simp_all
    · simp [Except.map] at h1
  | getHead => rfl
  | createBlob d =>
    show (s.create_blob d).2 = s
    have h1 : (s.create_blob d).1.map RetVal.str = Except.error e := herr
    rw [create_blob_state]
    simp only [GitVfs.create_blob, GitVfs.create_object] at h1 ⊢
    split at h1 <;> rename_i heq <;> split at heq <;> simp_all [Except.map]

/-- C5 witness: a failing update on the empty store leaves it unchanged. -/
theorem c5_error_frame_witness :
    (step GitVfs.new (Op.updateRef "x" "y")).1 =
      Except.error GitVfsError.NotFound ∧
    (step GitVfs.new (Op.updateRef "x" "y")).2 = GitVfs.new :=
  ⟨by decide, c5_error_frame GitVfs.new (Op.updateRef "x" "y")
    GitVfsError.NotFound (by decide)⟩

/-- C6: `create_ref` succeeds unconditionally on every state and overwrites:
after `create_ref r a` then `create_ref r b`, both succeed and `get_ref r`
returns `b`. -/
theorem c6_create_ref_overwrite (s : GitVfs) (r a b : String) :
    (s.create_ref r a).1 = Except.ok () ∧
    ((s.create_ref r a).2.create_ref r b).1 = Except.ok () ∧
    ((s.create_ref r a).2.create_ref r b).2.get_ref r = Except.ok b := by
  refine ⟨rfl, rfl, ?_⟩
  simp [GitVfs.create_ref, GitVfs.get_ref, mapFind?_insert]

/-- C7: `update_ref` fails with `NotFound` exactly when the name is absent;
on success `get_ref` returns the new target; on a miss the store is
unchanged (no implicit creation). -/
theorem c7_update_ref (s : GitVfs) (n t : String) :
    ((s.update_ref n t).1 = Except.error GitVfsError.NotFound ↔
      mapContains s.refs n = false) ∧
    ((s.update_ref n t).1 = Except.ok () →
      (s.update_ref n t).2.get_ref n = Except.ok t) ∧
    (mapContains s.refs n = false → (s.update_ref n t).2 = s) := by
  cases hc : mapContains s.refs n with
  | false => simp [GitVfs.update_ref, hc]
  | true => simp [GitVfs.update_ref, hc, GitVfs.get_ref, mapFind?_insert]

/-- C7 witness: a successful update is visible through `get_ref`, and a
missed update leaves the empty store unchanged. -/
theorem c7_update_ref_witness :
    (((GitVfs.new.create_ref "r" "a").2.update_ref "r" "b").2.get_ref "r" =
      Except.ok "b") ∧
    ((GitVfs.new.update_ref "r" "b").2 = GitVfs.new) :=
  ⟨(c7_update_ref (GitVfs.new.create_ref "r" "a").2 "r" "b").2.1 (by decide),
   (c7_update_ref GitVfs.new "r" "b").2.2 (by decide)⟩

/-- C8: `set_head` fails with `NotFound` exactly when the name is not a
known reference; on success HEAD holds the name. -/
theorem c8_set_head (s : GitVfs) (n : String) :
    ((s.set_head n).1 = Except.error GitVfsError.NotFound ↔
      mapContains s.refs n = false) ∧
    (mapContains s.refs n = true → (s.set_head n).2.head = some n) := by
  cases hc : mapContains s.refs n with
  | false => simp [GitVfs.set_head, hc]
  | true => simp [GitVfs.set_head, hc]

/-- C8 witness: after creating ref `"r"`, `set_head "r"` stores the name. -/
theorem c8_set_head_witness :
    ((GitVfs.new.create_ref "r" "a").2.set_head "r").2.head = some "r" :=
  (c8_set_head (GitVfs.new.create_ref "r" "a").2 "r").2 (by decide)

/-- C9: `get_head` is `NotFound` exactly when HEAD is unset, otherwise it
returns the stored reference name itself; in the concrete scenario the
returned name is `"refs/heads/main"`, not `"abc"`, and a separate `get_ref`
resolves it to `"abc"`. -/
theorem c9_head_indirection :
    (∀ s : GitVfs,
      (s.get_head = Except.error GitVfsError.NotFound ↔ s.head = none)) ∧
    (∀ (s : GitVfs) (n : String), s.head = some n →
      s.get_head = Except.ok n) ∧
    (((GitVfs.new.create_ref "refs/heads/main" "abc").2.set_head
        "refs/heads/main").2.get_head = Except.ok "refs/heads/main" ∧
     ((GitVfs.new.create_ref "refs/heads/main" "abc").2.set_head
        "refs/heads/main").2.get_head ≠ Except.ok "abc" ∧
     ((GitVfs.new.create_ref "refs/heads/main" "abc").2.set_head
        "refs/heads/main").2.get_ref "refs/heads/main" = Except.ok "abc") := by
  refine ⟨fun s => ?_, fun s n hn => ?_, by decide, by decide, by decide⟩
  · cases hh : s.head <;> simp [GitVfs.get_head, hh]
  · simp [GitVfs.get_head, hn]

/-- C9 witness: with HEAD set to `"r"`, `get_head` returns `"r"`. -/
theorem c9_head_indirection_witness :
    ((GitVfs.new.create_ref "r" "a").2.set_head "r").2.get_head =
      Except.ok "r" :=
  c9_head_indirection.2.1 ((GitVfs.new.create_ref "r" "a").2.set_head "r").2
    "r" (by decide)

/-- C10: `data_sha256` leaves the store untouched, and its hex digest
depends only on the input bytes, not on the store. -/
theorem c10_sha256_frame :
    (∀ (s : GitVfs) (d : List Nat), (s.data_sha256 d).2 = s) ∧
    (∀ (s₁ s₂ : GitVfs) (d : List Nat),
      (s₁.data_sha256 d).1 = (s₂.data_sha256 d).1) :=
  ⟨fun _ _ => rfl, fun _ _ _ => rfl⟩

/-! Sanity checks of the SHA-256 embedding against the digests recorded in
the repository's unit tests. -/

set_option maxRecDepth 100000 in
/-- The embedding reproduces the well-known empty-input digest. -/
theorem sha256_empty_vector :
    hexEncode (sha256 []) =
    "e3b0c44298fc1c149afbf4c8996fb92427ae41e4649b934ca495991b7852b855" := by
  decide

set_option maxRecDepth 100000 in
/-- The embedding reproduces the repository's `b"test data"` digest. -/
theorem sha256_test_data_vector :
    hexEncode (sha256 [116, 101, 115, 116, 32, 100, 97, 116, 97]) =
    "916f0027a575074ce72a331777c3478d6513f786a591bd892da1a577bf2335f9" := by
  decide

set_option maxRecDepth 100000 in
/-- The embedding reproduces the repository's `"hello world"` digest. -/
theorem sha256_hello_world_vector :
    hexEncode (sha256 [104, 101, 108, 108, 111, 32, 119, 111, 114, 108, 100]) =
    "b94d27b9934d3e08a52e52d7da7dabfac484efe37a5380ee9088f7ace2efcde9" := by
  decide
